import Mathlib

/-!
Verification of the blocked-PR detection and organization-scanning core of
the pull-request-fixer repository, as a shallow embedding in Lean 4.

JSON-shaped GraphQL payloads are modelled by the inductive type Json below.
Mapping access mirrors Python dict.get with an explicit default: absent keys
and non-object receivers resolve to the default, matching the degrade-to-empty
robustness contract of the code. GraphQL requests that may raise are modelled
as Except values; functions that swallow exceptions are total.
-/

/-- JSON values as produced by the GraphQL transport. -/
inductive Json where
  | null
  | bool (b : Bool)
  | num (n : Int)
  | str (s : String)
  | arr (elems : List Json)
  | obj (fields : List (String × Json))
deriving Repr

/-- First-match lookup in an association list of object fields, with default. -/
def lookupField (fields : List (String × Json)) (k : String) (d : Json) : Json :=
  match fields with
  | [] => d
  | (k2, v) :: rest => if k2 = k then v else lookupField rest k d

/-- Python style mapping get with an explicit default value: absent keys and
non-object receivers resolve to the default. -/
def Json.getD (j : Json) (k : String) (d : Json) : Json :=
  match j with
  | .obj fields => lookupField fields k d
  | _ => d

/-- Mapping get with default None, as in dict.get(k). -/
def Json.get (j : Json) (k : String) : Json :=
  j.getD k .null

/-- Python truthiness of a JSON value. -/
def Json.truthy : Json → Bool
  | .null => false
  | .bool b => b
  | .num n => n != 0
  | .str s => !s.isEmpty
  | .arr elems => !elems.isEmpty
  | .obj fields => !fields.isEmpty

/-- List coercion: array contents, or empty for any other value. -/
def Json.asArr : Json → List Json
  | .arr elems => elems
  | _ => []

/-- String view of a JSON value. -/
def Json.asStr : Json → Option String
  | .str s => some s
  | _ => none

/-- Integer coercion with default zero. -/
def Json.asInt : Json → Int
  | .num n => n
  | _ => 0

/-- Element of a JSON array at an index, or null when out of range or not an
array; mirrors guarded list indexing over the commits connection. -/
def Json.idx (j : Json) (i : Nat) : Json :=
  match j with
  | .arr elems => (elems.get? i).getD .null
  | _ => .null

/-- ASCII lowercasing of a string, modelling the Python lower method used for
the case-insensitive comparison of conclusions and states. -/
def pyLower (s : String) : String :=
  String.mk (s.data.map Char.toLower)

/-- CheckRun conclusions counted as failing, compared case-insensitively. -/
def failingConclusions : List String :=
  ["failure", "cancelled", "timed_out", "action_required"]

/-- StatusContext states counted as failing, compared case-insensitively. -/
def failingStates : List String :=
  ["failure", "error"]

/-- Modelled from the spec: the walk down
commits.nodes[0].commit.statusCheckRollup.contexts.nodes performed by the
classifier, any missing link resolving to the empty list. The classifier
implementation is not present in the source tree; only its tests are. -/
def contextNodes (pr : Json) : List Json :=
  (((((((pr.get "commits").get "nodes").idx 0).get "commit").get
      "statusCheckRollup").get "contexts").get "nodes").asArr

/-- Modelled from the spec: the failing-check identifier contributed by one
status-check rollup entry, branching on the type discriminator. A CheckRun
with a name and a failing conclusion contributes its name; a StatusContext
with a context and a failing state contributes its context; entries lacking
the identifier field and unknown discriminators are skipped. -/
def checkEntryFailingId (entry : Json) : Option String :=
  match (entry.get "__typename").asStr with
  | some t =>
    if t = "CheckRun" then
      match (entry.get "name").asStr with
      | some name =>
        match (entry.get "conclusion").asStr with
        | some c => if failingConclusions.contains (pyLower c) then some name else none
        | none => none
      | none => none
    else if t = "StatusContext" then
      match (entry.get "context").asStr with
      | some ctx =>
        match (entry.get "state").asStr with
        | some st => if failingStates.contains (pyLower st) then some ctx else none
        | none => none
      | none => none
    else none
  | none => none

/-- Modelled from the spec: extraction of the failing-check identifiers of a
pull-request node in encounter order, without deduplication. The method of
the scanner named extract failing checks is absent from the source tree. -/
def extract_failing_checks (pr : Json) : List String :=
  (contextNodes pr).filterMap checkEntryFailingId

/-- Modelled from the spec: the blocking classifier. Reasons are produced in
the fixed priority order merge conflicts, failing checks, branch protection,
behind base; all failing-check identifiers are joined into one comma-space
separated reason; the pair of the blocked flag and the reasons is returned.
The implementation is absent from the source tree; only its tests are. -/
def is_pr_blocked (pr : Json) : Bool × List String :=
  let failing := extract_failing_checks pr
  let reasons :=
    (if (pr.get "mergeable").asStr = some "CONFLICTING" then
       ["Merge conflicts"] else []) ++
    (if failing.isEmpty then []
     else ["Failing checks: " ++ String.intercalate ", " failing]) ++
    (if (pr.get "mergeStateStatus").asStr = some "BLOCKED" then
       ["Blocked by branch protection rules"] else []) ++
    (if (pr.get "mergeStateStatus").asStr = some "BEHIND" then
       ["Behind base branch"] else [])
  (!reasons.isEmpty, reasons)

/-- Split of a character list at the first slash, modelling the Python string
split with separator slash and maxsplit one: none when no slash occurs. -/
def splitFirstSlash : List Char → Option (List Char × List Char)
  | [] => none
  | c :: cs =>
    if c = '/' then some ([], cs)
    else (splitFirstSlash cs).map (fun p => (c :: p.1, p.2))

/-- Embedding of the static method split owner repo of the scanner: split an
owner slash name string at the first slash; when the string has no slash the
parts list has length one and the sentinel pair is returned. -/
def split_owner_repo (full_name : String) : String × String :=
  match splitFirstSlash full_name.data with
  | none => ("unknown", "unknown")
  | some (o, r) => (String.mk o, String.mk r)

/-- Embedding of the method should include pr: a node is dropped exactly when
drafts are excluded and its isDraft field is truthy. -/
def should_include_pr (pr_node : Json) (include_drafts : Bool) : Bool :=
  if !include_drafts && (pr_node.getD "isDraft" (Json.bool false)).truthy then
    false
  else
    true

/-- Embedding of the method count org repositories. The GraphQL call is a
value of Except: an exception is caught and resolved to a count of zero. On
success the code reads the organization object from the data field of the
returned mapping and then the total count of its repositories connection. -/
def count_org_repositories (result : Except Unit Json) : Int :=
  match result with
  | .error _ => 0
  | .ok r =>
    let org_data := (r.getD "data" (Json.obj [])).getD "organization" (Json.obj [])
    if org_data.truthy then
      ((org_data.getD "repositories" (Json.obj [])).getD "totalCount" (Json.num 0)).asInt
    else 0

/-- Events of the page fetching code relevant to the shared page semaphore:
an acquire of the semaphore, one GraphQL page request, a release. -/
inductive PageEvent where
  | acquire
  | request
  | release
deriving Repr, DecidableEq

/-- Result of the first page fetch: the pull request nodes, the page info
mapping, and the semaphore event trace of the fetch. -/
structure FirstPageOut where
  nodes : List Json
  pageInfo : Json
  events : List PageEvent
deriving Repr

/-- Embedding of the method fetch repo prs first page: issue one page request
without touching the page semaphore, locate the repository node whose name
matches, and return its pull request nodes and page info; every failure path,
including a raised request, resolves to an empty node list and an empty page
info mapping. -/
def fetch_repo_prs_first_page (repo_name : String) (resp : Except Unit Json) :
    FirstPageOut :=
  match resp with
  | .error _ => ⟨[], Json.obj [], [.request]⟩
  | .ok r =>
    let org_data := (r.getD "data" (Json.obj [])).getD "organization" (Json.obj [])
    if org_data.truthy then
      let nodes := ((org_data.getD "repositories" (Json.obj [])).getD "nodes" (Json.arr [])).asArr
      if nodes.isEmpty then ⟨[], Json.obj [], [.request]⟩
      else
        match nodes.find? (fun n => (n.get "name").asStr == some repo_name) with
        | some repo_node =>
          let prs := repo_node.getD "pullRequests" (Json.obj [])
          ⟨(prs.getD "nodes" (Json.arr [])).asArr,
           prs.getD "pageInfo" (Json.obj []), [.request]⟩
        | none => ⟨[], Json.obj [], [.request]⟩
    else ⟨[], Json.obj [], [.request]⟩

/-- Parsing of one response inside the pull request page loop: none means the
loop breaks with nothing further yielded, mirroring a raised request, an
absent organization, an empty repository node list, or no matching
repository; otherwise the pull request nodes of the matching repository, the
truthiness of hasNextPage, and the endCursor value are produced. -/
def iterPageStep (repo_name : String) (resp : Except Unit Json) :
    Option (List Json × Bool × Json) :=
  match resp with
  | .error _ => none
  | .ok r =>
    let org_data := (r.getD "data" (Json.obj [])).getD "organization" (Json.obj [])
    if org_data.truthy then
      let nodes := ((org_data.getD "repositories" (Json.obj [])).getD "nodes" (Json.arr [])).asArr
      if nodes.isEmpty then none
      else
        match nodes.find? (fun n => (n.get "name").asStr == some repo_name) with
        | some repo_node =>
          let prs := repo_node.getD "pullRequests" (Json.obj [])
          let page_info := prs.getD "pageInfo" (Json.obj [])
          some ((prs.getD "nodes" (Json.arr [])).asArr,
                (page_info.getD "hasNextPage" (Json.bool false)).truthy,
                page_info.get "endCursor")
        | none => none
    else none

/-- Output of the pull request page walker: the yielded pull request nodes,
the prCursor variable of every request issued in order, and the semaphore
event trace. -/
structure WalkOut where
  yields : List Json
  requests : List Json
  events : List PageEvent
deriving Repr

/-- Embedding of the method iter repo open prs pages. The server is a finite
script of responses consumed one per request. Each loop iteration acquires
the page semaphore, issues one request carrying the current cursor, and
releases the semaphore on every exit path; the loop continues with the
endCursor of the page exactly when its hasNextPage is truthy. -/
def iter_repo_prs_pages (repo_name : String) (cursor : Json) :
    List (Except Unit Json) → WalkOut
  | [] => ⟨[], [], []⟩
  | resp :: rest =>
    match iterPageStep repo_name resp with
    | none => ⟨[], [cursor], [.acquire, .request, .release]⟩
    | some (pr_nodes, has_next, cursor2) =>
      if has_next then
        let nxt := iter_repo_prs_pages repo_name cursor2 rest
        ⟨pr_nodes ++ nxt.yields, cursor :: nxt.requests,
         [.acquire, .request, .release] ++ nxt.events⟩
      else ⟨pr_nodes, [cursor], [.acquire, .request, .release]⟩

/-- Truthiness filter on the open pull request count of a repository node, as
used by the organization walker to keep only repositories with open PRs. -/
def hasOpenPullRequests (node : Json) : Bool :=
  0 < ((node.getD "pullRequests" (Json.obj [])).getD "totalCount" (Json.num 0)).asInt

/-- Parsing of one response inside the organization repository loop: none
means the loop breaks, mirroring a raised request or an absent organization;
otherwise the repository nodes with open pull requests, the truthiness of
hasNextPage, and the endCursor value are produced. -/
def orgPageStep (resp : Except Unit Json) : Option (List Json × Bool × Json) :=
  match resp with
  | .error _ => none
  | .ok r =>
    let org_data := (r.getD "data" (Json.obj [])).getD "organization" (Json.obj [])
    if org_data.truthy then
      let repos := org_data.getD "repositories" (Json.obj [])
      let page_info := repos.getD "pageInfo" (Json.obj [])
      some (((repos.getD "nodes" (Json.arr [])).asArr).filter hasOpenPullRequests,
            (page_info.getD "hasNextPage" (Json.bool false)).truthy,
            page_info.get "endCursor")
    else none

/-- The repoCursor variable of one organization page request: the cursor is
sent only when it is truthy, mirroring the conditional insertion into the
variables mapping. -/
def orgRequestOf (cursor : Json) : Option Json :=
  if cursor.truthy then some cursor else none

/-- Output of the organization repository walker: the yielded repository
nodes and the repoCursor variable of every request issued in order. -/
structure OrgWalkOut where
  yields : List Json
  requests : List (Option Json)
deriving Repr

/-- Embedding of the method iter org repositories with open prs over a finite
response script: each iteration issues one request whose repoCursor is the
current cursor when truthy, yields the repository nodes that have open pull
requests, and continues with the endCursor of the page exactly when its
hasNextPage is truthy. -/
def iter_org_repositories (cursor : Json) :
    List (Except Unit Json) → OrgWalkOut
  | [] => ⟨[], []⟩
  | resp :: rest =>
    match orgPageStep resp with
    | none => ⟨[], [orgRequestOf cursor]⟩
    | some (yielded, has_next, cursor2) =>
      if has_next then
        let nxt := iter_org_repositories cursor2 rest
        ⟨yielded ++ nxt.yields, orgRequestOf cursor :: nxt.requests⟩
      else ⟨yielded, [orgRequestOf cursor]⟩

/-- Items placed on the shared queue by repository tasks: an owner, a
repository name, and a pull request node. -/
def QItem : Type := String × String × Json

/-- Embedding of the repository processing task body: split the full name,
fetch the first page, enqueue the draft-filtered nodes of the first page,
and when that page reports a truthy hasNextPage and a truthy endCursor,
continue with the page walker and enqueue its draft-filtered nodes too. The
returned list is the sequence of queue puts of the task. -/
def process_repository (include_drafts : Bool) (repo_node : Json)
    (first_resp : Except Unit Json) (page_resps : List (Except Unit Json)) :
    List QItem :=
  let full := ((repo_node.getD "nameWithOwner"
      (Json.str "unknown/unknown")).asStr).getD "unknown/unknown"
  let owner := (split_owner_repo full).1
  let name := (split_owner_repo full).2
  let fp := fetch_repo_prs_first_page name first_resp
  let fromFirst := (fp.nodes.filter (fun n => should_include_pr n include_drafts)).map
      (fun n => ((owner, name, n) : QItem))
  let has_next := (fp.pageInfo.getD "hasNextPage" (Json.bool false)).truthy
  let cursor := fp.pageInfo.get "endCursor"
  if has_next && cursor.truthy then
    fromFirst ++
      (((iter_repo_prs_pages name cursor page_resps).yields.filter
          (fun n => should_include_pr n include_drafts)).map
        (fun n => ((owner, name, n) : QItem)))
  else fromFirst

/-- Embedding of the producer task at the level of queue contents: the body
enqueues some items and then finishes normally or with an exception; the
final clause of the producer appends exactly one sentinel in either case. -/
def producer_pushes (pushed : List QItem) (outcome : Except Unit Unit) :
    List (Option QItem) :=
  match outcome with
  | .ok _ => (pushed.map some) ++ [none]
  | .error _ => (pushed.map some) ++ [none]

/-- Embedding of the consumer loop of scan organization: dequeue repeatedly,
yield every non sentinel item, and stop at the first sentinel. -/
def consume : List (Option QItem) → List QItem
  | [] => []
  | none :: _ => []
  | some x :: rest => x :: consume rest

/-- Inputs of one repository task in a scan: the repository node discovered
by the organization walker and the response scripts of its page fetches. -/
structure RepoTaskInput where
  repo_node : Json
  first_resp : Except Unit Json
  page_resps : List (Except Unit Json)

/-- Queue content pushed during one whole scan: the puts of every repository
task in order, followed by the single sentinel of the producer. -/
def scan_pushes (include_drafts : Bool) (repos : List RepoTaskInput) :
    List (Option QItem) :=
  producer_pushes
    ((repos.map (fun ri =>
        process_repository include_drafts ri.repo_node ri.first_resp ri.page_resps)).flatten)
    (.ok ())

/-- Embedding of scan organization: the count phase result paired with the
items the consumer loop yields from the queue. The count feeds only the
progress tracker. -/
def scan_organization (count_result : Except Unit Json) (include_drafts : Bool)
    (repos : List RepoTaskInput) : Int × List QItem :=
  (count_org_repositories count_result, consume (scan_pushes include_drafts repos))

/-- Model of an asyncio queue: a maxsize, where zero means unbounded as in
the asyncio default, and the items currently enqueued. -/
structure AsyncQueue (α : Type) where
  maxsize : Nat
  items : List α

/-- Whether a put on the queue would wait for the consumer: only when a
positive maxsize has been reached. -/
def AsyncQueue.putWouldWait (q : AsyncQueue α) : Bool :=
  decide (0 < q.maxsize) && decide (q.maxsize ≤ q.items.length)

/-- One queue put: none when the put would wait on the consumer, otherwise
the queue with the item appended. -/
def AsyncQueue.put (q : AsyncQueue α) (x : α) : Option (AsyncQueue α) :=
  if q.putWouldWait then none else some ⟨q.maxsize, q.items ++ [x]⟩

/-- A sequence of queue puts with no interleaved consumer step: none when
some put would wait forever. -/
def putAll (q : AsyncQueue α) : List α → Option (AsyncQueue α)
  | [] => some q
  | x :: xs =>
    match q.put x with
    | none => none
    | some q2 => putAll q2 xs

/-- The shared PR queue as created by the scanner: an asyncio queue built
with no arguments, hence maxsize zero, meaning unbounded. -/
def pr_queue_init : AsyncQueue (Option QItem) :=
  ⟨0, []⟩

/-- One scripted page of the open pull request connection of one repository:
its pull request nodes, its hasNextPage flag, and its endCursor value. -/
structure PrPage where
  prNodes : List Json
  hasNext : Bool
  endCursor : Json

/-- JSON repository node holding a name and an open pull request page. -/
def mkRepoNodeJson (name : String) (prNodes : List Json) (hasNext : Bool)
    (endCursor : Json) : Json :=
  Json.obj [("name", Json.str name),
    ("pullRequests", Json.obj [("nodes", Json.arr prNodes),
      ("pageInfo", Json.obj [("hasNextPage", Json.bool hasNext),
        ("endCursor", endCursor)])])]

/-- JSON response of one pull request page request for the named repository,
in the enveloped shape the scanner parses. -/
def mkPrPageResponse (repoName : String) (p : PrPage) : Json :=
  Json.obj [("data", Json.obj [("organization", Json.obj [("repositories",
    Json.obj [("nodes",
      Json.arr [mkRepoNodeJson repoName p.prNodes p.hasNext p.endCursor])])])])]

/-- Well-formed finite page chain: nonempty, every page before the last
reports hasNextPage true, and the last page reports hasNextPage false. -/
def prChainOk : List PrPage → Bool
  | [] => false
  | [p] => !p.hasNext
  | p :: rest => p.hasNext && prChainOk rest

/-- The endCursor values of every page except the last, in order: the cursor
inputs of the continuation requests. -/
def prInnerCursors : List PrPage → List Json
  | [] => []
  | [_] => []
  | p :: rest => p.endCursor :: prInnerCursors rest

/-- One scripted page of the organization repositories connection. -/
structure OrgPage where
  repoNodes : List Json
  hasNext : Bool
  endCursor : Json

/-- JSON response of one organization repositories page request, in the
enveloped shape the scanner parses. -/
def mkOrgPageResponse (p : OrgPage) : Json :=
  Json.obj [("data", Json.obj [("organization", Json.obj [("repositories",
    Json.obj [("nodes", Json.arr p.repoNodes),
      ("pageInfo", Json.obj [("hasNextPage", Json.bool p.hasNext),
        ("endCursor", p.endCursor)])])])])]

/-- Well-formed finite organization page chain: nonempty, every page before
the last reports hasNextPage true with a truthy endCursor, and the last page
reports hasNextPage false. -/
def orgChainOk : List OrgPage → Bool
  | [] => false
  | [p] => !p.hasNext
  | p :: rest => p.hasNext && p.endCursor.truthy && orgChainOk rest

/-- The endCursor values of every organization page except the last, each
wrapped as a present repoCursor variable. -/
def orgInnerCursors : List OrgPage → List (Option Json)
  | [] => []
  | [_] => []
  | p :: rest => some p.endCursor :: orgInnerCursors rest

/-- A semaphore trace made of closed blocks: an acquire, then the request,
then a release, repeated; no request occurs outside an acquire and release
pair and every acquire is released. -/
def semBracketed : List PageEvent → Bool
  | [] => true
  | .acquire :: .request :: .release :: rest => semBracketed rest
  | _ => false

/-- JSON CheckRun entry with a name and a conclusion. -/
def mkCheckRunEntry (name concl : String) : Json :=
  Json.obj [("__typename", Json.str "CheckRun"), ("name", Json.str name),
    ("conclusion", Json.str concl)]

/-- JSON commits connection holding one commit with the given status check
rollup entries. -/
def mkCommitsOf (entries : List Json) : Json :=
  Json.obj [("nodes", Json.arr [Json.obj [("commit",
    Json.obj [("statusCheckRollup", Json.obj [("contexts",
      Json.obj [("nodes", Json.arr entries)])])])]])]

/-- Concrete pull request node of the multiple-blocking-reasons scenario:
conflicting, blocked by branch protection, and two failing CheckRuns. -/
def prNodeTwoFailing : Json :=
  Json.obj [("mergeable", Json.str "CONFLICTING"),
    ("mergeStateStatus", Json.str "BLOCKED"),
    ("commits", mkCommitsOf
      [mkCheckRunEntry "Test A" "failure", mkCheckRunEntry "Test B" "failure"])]

/-- C1: a PR node that is conflicting, blocked by branch protection, and
whose rollup contains exactly the failing check identifiers Test A and
Test B in order classifies as blocked with the three reasons in the fixed
priority order, the failing identifiers joined into one comma-space
separated reason. -/
theorem c1_multiple_reasons_fixed_order (pr : Json)
    (h1 : (pr.get "mergeable").asStr = some "CONFLICTING")
    (h2 : (pr.get "mergeStateStatus").asStr = some "BLOCKED")
    (h3 : extract_failing_checks pr = ["Test A", "Test B"]) :
    is_pr_blocked pr = (true,
      ["Merge conflicts", "Failing checks: Test A, Test B",
       "Blocked by branch protection rules"]) := by
  simp only [is_pr_blocked, h1, h2, h3]
  decide

/-- C1 witness: the concrete node of the scenario satisfies the hypotheses
and is classified with the three ordered reasons. -/
theorem c1_multiple_reasons_witness :
    (prNodeTwoFailing.get "mergeable").asStr = some "CONFLICTING" ∧
    (prNodeTwoFailing.get "mergeStateStatus").asStr = some "BLOCKED" ∧
    extract_failing_checks prNodeTwoFailing = ["Test A", "Test B"] ∧
    is_pr_blocked prNodeTwoFailing = (true,
      ["Merge conflicts", "Failing checks: Test A, Test B",
       "Blocked by branch protection rules"]) :=
  ⟨by decide, by decide, by decide,
    c1_multiple_reasons_fixed_order prNodeTwoFailing
      (by decide) (by decide) (by decide)⟩

/-- C2: the classifier is a total function of the JSON node, and any node
with no recognized blocking condition, among them the empty mapping and
nodes with missing or malformed fields, classifies as not blocked with an
empty reason list. -/
theorem c2_no_condition_yields_not_blocked (pr : Json)
    (h1 : (pr.get "mergeable").asStr ≠ some "CONFLICTING")
    (h2 : extract_failing_checks pr = [])
    (h3 : (pr.get "mergeStateStatus").asStr ≠ some "BLOCKED")
    (h4 : (pr.get "mergeStateStatus").asStr ≠ some "BEHIND") :
    is_pr_blocked pr = (false, []) := by
  simp only [is_pr_blocked, h2, if_neg h1, if_neg h3, if_neg h4]
  decide

/-- C2 witness: the empty mapping has no recognized blocking condition and
classifies as not blocked. -/
theorem c2_empty_mapping_witness :
    ((Json.obj []).get "mergeable").asStr ≠ some "CONFLICTING" ∧
    extract_failing_checks (Json.obj []) = [] ∧
    ((Json.obj []).get "mergeStateStatus").asStr ≠ some "BLOCKED" ∧
    ((Json.obj []).get "mergeStateStatus").asStr ≠ some "BEHIND" ∧
    is_pr_blocked (Json.obj []) = (false, []) :=
  ⟨by decide, by decide, by decide, by decide,
    c2_no_condition_yields_not_blocked (Json.obj [])
      (by decide) (by decide) (by decide) (by decide)⟩

/-- Organization repositories payload with a total count, as the collaborator
returns it: the data object directly, with no envelope around it. -/
def unwrappedCountData : Json :=
  Json.obj [("organization", Json.obj [("repositories",
    Json.obj [("totalCount", Json.num 10), ("nodes", Json.arr [])])])]

/-- Repository node with one open pull request, used to probe the walkers. -/
def repoNodeWithOpenPr : Json :=
  Json.obj [("name", Json.str "repo1"),
    ("nameWithOwner", Json.str "org/repo1"),
    ("pullRequests", Json.obj [("totalCount", Json.num 1)])]

/-- Organization repositories page payload holding one qualifying repository
node and no further page, as the collaborator returns it: unwrapped. -/
def unwrappedOrgPageData : Json :=
  Json.obj [("organization", Json.obj [("repositories",
    Json.obj [("nodes", Json.arr [repoNodeWithOpenPr]),
      ("pageInfo", Json.obj [("hasNextPage", Json.bool false)])])])]

/-- Open pull request page payload for repository repo1 holding one pull
request node, as the collaborator returns it: unwrapped. -/
def unwrappedPrPageData : Json :=
  Json.obj [("organization", Json.obj [("repositories",
    Json.obj [("nodes", Json.arr [mkRepoNodeJson "repo1"
      [Json.obj [("number", Json.num 1)]] false Json.null])])])]

/-- C4: the scanner does not consume the graphql collaborator per its stated
contract. On the unwrapped data object the contract specifies, the count
query resolves to zero and both walkers find nothing; each of the three
reads the organization connection only from under a data key, so only the
enveloped shape is understood. This contradicts the collaborator tests of
the repository, which mock graphql returning the unwrapped object and expect
the count ten and the nodes back. -/
theorem c4_scanner_expects_data_envelope :
    count_org_repositories (Except.ok unwrappedCountData) = 0 ∧
    count_org_repositories
      (Except.ok (Json.obj [("data", unwrappedCountData)])) = 10 ∧
    (iter_org_repositories Json.null [Except.ok unwrappedOrgPageData]).yields
      = [] ∧
    (iter_org_repositories Json.null
      [Except.ok (Json.obj [("data", unwrappedOrgPageData)])]).yields
      = [repoNodeWithOpenPr] ∧
    (fetch_repo_prs_first_page "repo1"
      (Except.ok unwrappedPrPageData)).nodes = [] ∧
    (fetch_repo_prs_first_page "repo1"
      (Except.ok (Json.obj [("data", unwrappedPrPageData)]))).nodes
      = [Json.obj [("number", Json.num 1)]] := by
  refine ⟨by decide, by decide, ?_, ?_, ?_, ?_⟩ <;> rfl

/-- C5 counterexample: a full name whose second part is empty is not mapped
to the sentinel pair; the split parts are returned as they are. -/
theorem c5_empty_part_counterexample :
    split_owner_repo "a/" = ("a", "") ∧
    (("a", "") : String × String) ≠ ("unknown", "unknown") := by
  constructor
  · rfl
  · decide

/-- Helper: a character list without a slash yields no split. -/
theorem splitFirstSlash_eq_none (l : List Char) (h : '/' ∉ l) :
    splitFirstSlash l = none := by
  induction l with
  | nil => rfl
  | cons c cs ih =>
    have hc : ¬ c = '/' := fun e => h (e ▸ List.mem_cons_self c cs)
    simp only [splitFirstSlash, if_neg hc,
      ih (fun m => h (List.mem_cons_of_mem c m)), Option.map_none']

/-- Helper: splitting a list made of a slash-free part, a slash, and a rest
returns those two parts. -/
theorem splitFirstSlash_append (a b : List Char) (h : '/' ∉ a) :
    splitFirstSlash (a ++ '/' :: b) = some (a, b) := by
  induction a with
  | nil => simp [splitFirstSlash]
  | cons c cs ih =>
    have hc : ¬ c = '/' := fun e => h (e ▸ List.mem_cons_self c cs)
    simp only [List.cons_append, splitFirstSlash, if_neg hc, List.append_eq]
    rw [ih (fun m => h (List.mem_cons_of_mem c m))]
    rfl

/-- C5 amended: the split never raises; a full name containing no slash is
mapped to the sentinel pair; any other full name is split at its first slash
into owner and name exactly as they stand, even when a part is empty. -/
theorem c5_split_owner_repo_amended :
    (∀ s : String, '/' ∉ s.data →
      split_owner_repo s = ("unknown", "unknown")) ∧
    (∀ a b : String, '/' ∉ a.data →
      split_owner_repo (a ++ "/" ++ b) = (a, b)) := by
  constructor
  · intro s h
    unfold split_owner_repo
    rw [splitFirstSlash_eq_none s.data h]
  · intro a b h
    unfold split_owner_repo
    have hd : (a ++ "/" ++ b).data = a.data ++ '/' :: b.data := by
      cases a with
      | mk la =>
        cases b with
        | mk lb =>
          show (la ++ ['/']) ++ lb = la ++ '/' :: lb
          simp
    rw [hd, splitFirstSlash_append a.data b.data h]

/-- C5 witness for the amended statement: a two-part name splits into its
parts. -/
theorem c5_split_owner_repo_witness :
    '/' ∉ "octo".data ∧
    split_owner_repo ("octo" ++ "/" ++ "repo") = ("octo", "repo") :=
  ⟨by decide, c5_split_owner_repo_amended.2 "octo" "repo" (by decide)⟩

/-- C3 counterexample: the first page fetch of a repository issues its
GraphQL request without ever acquiring the page semaphore, refuting that
every page fetch acquires it before the request. -/
theorem c3_first_page_no_acquire_counterexample :
    PageEvent.request ∈ (fetch_repo_prs_first_page "repo1" (Except.error ())).events ∧
    PageEvent.acquire ∉ (fetch_repo_prs_first_page "repo1" (Except.error ())).events := by
  decide

/-- C3 amended: only the subsequent-page fetches of the pull request page
walker are gated by the page semaphore; each walker iteration acquires it
before its request and releases it afterwards on success and on failure,
while the first page fetch issues its single request with no acquire at
all. -/
theorem c3_page_semaphore_bracketing :
    (∀ (repo_name : String) (cursor : Json)
       (resps : List (Except Unit Json)),
      semBracketed (iter_repo_prs_pages repo_name cursor resps).events = true) ∧
    (∀ (repo_name : String) (resp : Except Unit Json),
      (fetch_repo_prs_first_page repo_name resp).events = [PageEvent.request]) := by
  constructor
  · intro rn c resps
    induction resps generalizing c with
    | nil => rfl
    | cons resp rest ih =>
      simp only [iter_repo_prs_pages]
      cases hs : iterPageStep rn resp with
      | none => rfl
      | some v =>
        obtain ⟨pr_nodes, has_next, cursor2⟩ := v
        cases has_next with
        | false => rfl
        | true => simpa [semBracketed] using ih cursor2
  · intro rn resp
    cases resp with
    | error e => rfl
    | ok r =>
      simp only [fetch_repo_prs_first_page]
      repeat' split <;> try rfl

/-- The semaphore trace of a run of the page walker that fetched the given
number of pages: one closed acquire request release block per page. -/
def bracketEvents : Nat → List PageEvent
  | 0 => []
  | n + 1 => PageEvent.acquire :: PageEvent.request :: PageEvent.release ::
      bracketEvents n

/-- Helper: parsing a scripted pull request page response recovers its node
list, its hasNextPage flag, and its endCursor. -/
theorem iterPageStep_scripted (name : String) (p : PrPage) :
    iterPageStep name (Except.ok (mkPrPageResponse name p)) =
      some (p.prNodes, p.hasNext, p.endCursor) := by
  simp [iterPageStep, mkPrPageResponse, mkRepoNodeJson, Json.getD, Json.get,
    lookupField, Json.truthy, Json.asArr, Json.asStr]

/-- Helper: parsing a scripted organization page response recovers its
filtered repository nodes, its hasNextPage flag, and its endCursor. -/
theorem orgPageStep_scripted (p : OrgPage) :
    orgPageStep (Except.ok (mkOrgPageResponse p)) =
      some (p.repoNodes.filter hasOpenPullRequests, p.hasNext, p.endCursor) := by
  simp [orgPageStep, mkOrgPageResponse, Json.getD, Json.get,
    lookupField, Json.truthy, Json.asArr]


/-- Helper: one unfolding of the pull request page walker on a scripted
page. -/
theorem iter_repo_cons_scripted (name : String) (c0 : Json) (p : PrPage)
    (rest : List (Except Unit Json)) :
    iter_repo_prs_pages name c0 (Except.ok (mkPrPageResponse name p) :: rest) =
      (if p.hasNext = true then
        ⟨p.prNodes ++ (iter_repo_prs_pages name p.endCursor rest).yields,
         c0 :: (iter_repo_prs_pages name p.endCursor rest).requests,
         PageEvent.acquire :: PageEvent.request :: PageEvent.release ::
           (iter_repo_prs_pages name p.endCursor rest).events⟩
      else ⟨p.prNodes, [c0],
        [PageEvent.acquire, PageEvent.request, PageEvent.release]⟩) := by
  simp only [iter_repo_prs_pages, iterPageStep_scripted]
  cases p.hasNext <;> simp

/-- Helper: one unfolding of the organization repository walker on a
scripted page. -/
theorem iter_org_cons_scripted (c0 : Json) (p : OrgPage)
    (rest : List (Except Unit Json)) :
    iter_org_repositories c0 (Except.ok (mkOrgPageResponse p) :: rest) =
      (if p.hasNext = true then
        ⟨p.repoNodes.filter hasOpenPullRequests ++
           (iter_org_repositories p.endCursor rest).yields,
         orgRequestOf c0 :: (iter_org_repositories p.endCursor rest).requests⟩
      else ⟨p.repoNodes.filter hasOpenPullRequests, [orgRequestOf c0]⟩) := by
  simp only [iter_org_repositories, orgPageStep_scripted]

/-- C6: over any finite well-formed page script ending in a page with
hasNextPage false, the pull request page walker and the organization
repository walker yield the nodes of every page exactly once and then stop,
issuing exactly one request per page and never touching responses beyond
the final page; each continuation request carries the endCursor of the
previous page as its cursor variable. For the organization walker every
scripted node is assumed to report an open pull request, so the yield of a
page is its full node list. -/
theorem c6_pagination_yields_once_and_terminates :
    (∀ (name : String) (c0 : Json) (pages : List PrPage)
       (extra : List (Except Unit Json)),
      prChainOk pages = true →
      iter_repo_prs_pages name c0
          ((pages.map (fun p => Except.ok (mkPrPageResponse name p))) ++ extra) =
        ⟨(pages.map PrPage.prNodes).flatten, c0 :: prInnerCursors pages,
         bracketEvents pages.length⟩) ∧
    (∀ (c0 : Json) (pages : List OrgPage)
       (extra : List (Except Unit Json)),
      orgChainOk pages = true →
      (∀ p ∈ pages, ∀ n ∈ p.repoNodes, hasOpenPullRequests n = true) →
      iter_org_repositories c0
          ((pages.map (fun p => Except.ok (mkOrgPageResponse p))) ++ extra) =
        ⟨(pages.map OrgPage.repoNodes).flatten,
         orgRequestOf c0 :: orgInnerCursors pages⟩) := by
  constructor
  · intro name c0 pages extra
    induction pages generalizing c0 with
    | nil => intro h; simp [prChainOk] at h
    | cons p rest ih =>
      intro h
      cases rest with
      | nil =>
        have hp : p.hasNext = false := by simpa [prChainOk] using h
        rw [List.map_cons, List.map_nil, List.cons_append, List.nil_append,
          iter_repo_cons_scripted, hp]
        simp [prInnerCursors, bracketEvents]
      | cons q rest2 =>
        have h2 := h
        simp only [prChainOk, Bool.and_eq_true] at h2
        obtain ⟨hp, hrest⟩ := h2
        rw [List.map_cons, List.cons_append, iter_repo_cons_scripted, hp,
          if_pos rfl, ih p.endCursor hrest]
        simp [prInnerCursors, bracketEvents]
  · intro c0 pages extra
    induction pages generalizing c0 with
    | nil => intro h; simp [orgChainOk] at h
    | cons p rest ih =>
      intro h hall
      have hfilter : p.repoNodes.filter hasOpenPullRequests = p.repoNodes := by
        apply List.filter_eq_self.mpr
        intro n hn
        exact hall p (List.mem_cons_self p rest) n hn
      cases rest with
      | nil =>
        have hp : p.hasNext = false := by simpa [orgChainOk] using h
        rw [List.map_cons, List.map_nil, List.cons_append, List.nil_append,
          iter_org_cons_scripted, hp]
        simp [orgInnerCursors, hfilter]
      | cons q rest2 =>
        have h2 := h
        simp only [orgChainOk, Bool.and_eq_true] at h2
        obtain ⟨⟨hp, hcur⟩, hrest⟩ := h2
        have hall2 : ∀ p2 ∈ q :: rest2, ∀ n ∈ p2.repoNodes,
            hasOpenPullRequests n = true := by
          intro p2 hp2 n hn
          exact hall p2 (List.mem_cons_of_mem p hp2) n hn
        rw [List.map_cons, List.cons_append, iter_org_cons_scripted, hp,
          if_pos rfl, ih p.endCursor hrest hall2]
        simp [orgInnerCursors, orgRequestOf, hcur, hfilter]

/-- Scripted pull request page one: two nodes, a next page, a cursor. -/
def prPageW1 : PrPage :=
  ⟨[Json.num 1, Json.num 2], true, Json.str "cur1"⟩

/-- Scripted pull request page two: one node and no next page. -/
def prPageW2 : PrPage :=
  ⟨[Json.num 3], false, Json.null⟩

/-- Scripted organization page one: one qualifying node, a next page. -/
def orgPageW1 : OrgPage :=
  ⟨[repoNodeWithOpenPr], true, Json.str "oc1"⟩

/-- Scripted organization page two: no nodes and no next page. -/
def orgPageW2 : OrgPage :=
  ⟨[], false, Json.null⟩

/-- C6 witness: both walkers on a concrete two page script followed by junk
responses yield the nodes of the two pages once, request each page once with
the threaded cursors, and never touch the junk. -/
theorem c6_pagination_witness :
    prChainOk [prPageW1, prPageW2] = true ∧
    iter_repo_prs_pages "repo1" (Json.str "c0")
        (([prPageW1, prPageW2].map
          (fun p => Except.ok (mkPrPageResponse "repo1" p))) ++ [Except.error ()]) =
      ⟨([prPageW1, prPageW2].map PrPage.prNodes).flatten,
       Json.str "c0" :: prInnerCursors [prPageW1, prPageW2],
       bracketEvents ([prPageW1, prPageW2].length)⟩ ∧
    orgChainOk [orgPageW1, orgPageW2] = true ∧
    (∀ p ∈ [orgPageW1, orgPageW2], ∀ n ∈ p.repoNodes,
      hasOpenPullRequests n = true) ∧
    iter_org_repositories Json.null
        (([orgPageW1, orgPageW2].map
          (fun p => Except.ok (mkOrgPageResponse p))) ++ [Except.error ()]) =
      ⟨([orgPageW1, orgPageW2].map OrgPage.repoNodes).flatten,
       orgRequestOf Json.null :: orgInnerCursors [orgPageW1, orgPageW2]⟩ :=
  ⟨by decide,
   c6_pagination_yields_once_and_terminates.1 "repo1" (Json.str "c0")
     [prPageW1, prPageW2] [Except.error ()] (by decide),
   by decide, by decide,
   c6_pagination_yields_once_and_terminates.2 Json.null
     [orgPageW1, orgPageW2] [Except.error ()] (by decide) (by decide)⟩

/-- Helper: consuming the mapped items followed by the sentinel returns the
items and stops. -/
theorem consume_map_some (l : List QItem) :
    consume (l.map some ++ [none]) = l := by
  induction l with
  | nil => rfl
  | cons x xs ih => simp [consume, ih]

/-- Helper: a list of present items holds no sentinel. -/
theorem countP_isNone_map_some (l : List QItem) :
    (l.map some).countP (fun x => x.isNone) = 0 := by
  induction l with
  | nil => rfl
  | cons x xs ih => simp [List.countP_cons, ih]

/-- C7: whether the producer body finishes normally or with an exception,
exactly one sentinel is pushed onto the queue, and the consumer loop yields
every non sentinel item and ends exactly at the sentinel. -/
theorem c7_one_sentinel_and_consumer_stops_there :
    ∀ (pushed : List QItem) (outcome : Except Unit Unit),
      (producer_pushes pushed outcome).countP (fun x => x.isNone) = 1 ∧
      consume (producer_pushes pushed outcome) = pushed := by
  intro pushed outcome
  cases outcome with
  | ok u =>
    exact ⟨by simp [producer_pushes, List.countP_append, List.countP_cons,
      countP_isNone_map_some], consume_map_some pushed⟩
  | error e =>
    exact ⟨by simp [producer_pushes, List.countP_append, List.countP_cons,
      countP_isNone_map_some], consume_map_some pushed⟩

/-- C8: a raised GraphQL request is absorbed at the smallest enclosing
scope. The count query resolves to zero; the first page fetch resolves to no
nodes and empty page info; each walker ends its sequence at the failing page
without touching later responses; the items of the scan are identical
whether the count phase failed or succeeded; and a repository whose fetch
raises contributes nothing while the rest of the scan is unaffected. -/
theorem c8_request_errors_absorbed_smallest_scope :
    (∀ e : Unit, count_org_repositories (Except.error e) = 0) ∧
    (∀ (rn : String) (e : Unit),
      fetch_repo_prs_first_page rn (Except.error e) =
        ⟨[], Json.obj [], [PageEvent.request]⟩) ∧
    (∀ (rn : String) (c : Json) (e : Unit)
       (rest : List (Except Unit Json)),
      iter_repo_prs_pages rn c (Except.error e :: rest) =
        ⟨[], [c], [PageEvent.acquire, PageEvent.request, PageEvent.release]⟩) ∧
    (∀ (c : Json) (e : Unit) (rest : List (Except Unit Json)),
      iter_org_repositories c (Except.error e :: rest) =
        ⟨[], [orgRequestOf c]⟩) ∧
    (∀ (e : Unit) (n : Json) (d : Bool) (repos : List RepoTaskInput),
      (scan_organization (Except.error e) d repos).2 =
        (scan_organization (Except.ok n) d repos).2) ∧
    (∀ (d : Bool) (pre post : List RepoTaskInput) (rn : Json)
       (prs : List (Except Unit Json)),
      consume (scan_pushes d (pre ++ ⟨rn, Except.error (), prs⟩ :: post)) =
        consume (scan_pushes d (pre ++ post))) := by
  refine ⟨fun e => rfl, fun rn e => rfl, fun rn c e rest => rfl,
    fun c e rest => rfl, fun e n d repos => rfl, ?_⟩
  intro d pre post rn prs
  have hbad : process_repository d rn (Except.error ()) prs = [] := rfl
  simp [scan_pushes, producer_pushes, consume_map_some, hbad]

/-- Full name read off a repository node, defaulting to the sentinel. -/
def repo_full_name (rn : Json) : String :=
  ((rn.getD "nameWithOwner" (Json.str "unknown/unknown")).asStr).getD
    "unknown/unknown"

/-- Owner component of the split full name of a repository node. -/
def repo_task_owner (rn : Json) : String :=
  (split_owner_repo (repo_full_name rn)).1

/-- Name component of the split full name of a repository node. -/
def repo_task_name (rn : Json) : String :=
  (split_owner_repo (repo_full_name rn)).2

/-- Pull request nodes a repository task discovers: the first page nodes
followed by the walker nodes when the first page reports a truthy
hasNextPage and a truthy endCursor. -/
def repo_task_nodes (rn : Json) (fr : Except Unit Json)
    (prs : List (Except Unit Json)) : List Json :=
  let fp := fetch_repo_prs_first_page (repo_task_name rn) fr
  fp.nodes ++
    (if (fp.pageInfo.getD "hasNextPage" (Json.bool false)).truthy
        && (fp.pageInfo.get "endCursor").truthy then
      (iter_repo_prs_pages (repo_task_name rn)
        (fp.pageInfo.get "endCursor") prs).yields
    else [])

/-- C9: a pull request node is excluded exactly when drafts are excluded and
the node is a draft; with drafts included every node survives; and the
repository task enqueues precisely the draft filtered nodes of the first
page and of all subsequent pages, as owner name node tuples. -/
theorem c9_draft_filter_on_all_pages :
    (∀ (pr : Json) (d : Bool),
      should_include_pr pr d = false ↔
        (d = false ∧ (pr.getD "isDraft" (Json.bool false)).truthy = true)) ∧
    (∀ (d : Bool) (rn : Json) (fr : Except Unit Json)
       (prs : List (Except Unit Json)),
      process_repository d rn fr prs =
        ((repo_task_nodes rn fr prs).filter
          (fun n => should_include_pr n d)).map
          (fun n => ((repo_task_owner rn, repo_task_name rn, n) : QItem))) := by
  constructor
  · intro pr d
    cases d with
    | false =>
      cases ht : (pr.getD "isDraft" (Json.bool false)).truthy <;>
        simp [should_include_pr, ht]
    | true => simp [should_include_pr]
  · intro d rn fr prs
    simp only [process_repository, repo_task_nodes, repo_task_owner,
      repo_task_name, repo_full_name]
    cases hb : (((fetch_repo_prs_first_page
        (split_owner_repo (((rn.getD "nameWithOwner"
          (Json.str "unknown/unknown")).asStr).getD "unknown/unknown")).2
        fr).pageInfo.getD "hasNextPage" (Json.bool false)).truthy
        && ((fetch_repo_prs_first_page
        (split_owner_repo (((rn.getD "nameWithOwner"
          (Json.str "unknown/unknown")).asStr).getD "unknown/unknown")).2
        fr).pageInfo.get "endCursor").truthy) with
    | false => simp [hb]
    | true => simp [hb, List.filter_append, List.map_append]

/-- Helper: on an unbounded queue every put succeeds and the puts append. -/
theorem putAll_unbounded (acc : List α) (xs : List α) :
    putAll (⟨0, acc⟩ : AsyncQueue α) xs = some ⟨0, acc ++ xs⟩ := by
  induction xs generalizing acc with
  | nil => simp [putAll]
  | cons x xs ih =>
    simp [putAll, AsyncQueue.put, AsyncQueue.putWouldWait, ih]

/-- C10: the shared PR queue is created with no capacity bound, every
sequence of puts on it completes with no consumer step, and in particular
the producer pushes, items then sentinel, all complete without waiting
whatever the outcome of the body, so the producer and the repository tasks
run to completion regardless of the consumer. -/
theorem c10_unbounded_queue_never_blocks :
    pr_queue_init.maxsize = 0 ∧
    (∀ xs : List (Option QItem),
      putAll pr_queue_init xs = some ⟨0, xs⟩) ∧
    (∀ (pushed : List QItem) (outcome : Except Unit Unit),
      putAll pr_queue_init (producer_pushes pushed outcome) =
        some ⟨0, producer_pushes pushed outcome⟩) := by
  refine ⟨rfl, fun xs => ?_, fun pushed outcome => ?_⟩
  · simpa using putAll_unbounded [] xs
  · simpa using putAll_unbounded [] (producer_pushes pushed outcome)
